import Mathlib

/-!
Verification of the multi-charset text decoding/encoding subsystem of this
repository (the `TextDecoder` / `CharacterSet` component exercised by
`src/test/unit/TextDecoderTest.cpp`).

The decoder implementation itself is not among the analysed source files;
only its unit tests and a caller are.  Following the spec, the registry and
codec engine are modelled here from the spec's description, with every
concrete table entry and every concrete decode result pinned by the
repository's unit tests (`TextDecoderTest.cpp`).  Bytes are `Nat` values
0x00–0xFF, wide strings are lists of UTF-16 code units (`Nat`), and decoding
is a left-to-right loop where each step consumes at least one byte.
-/

set_option maxRecDepth 8192

namespace ZXingSpec

/-- Modelled from the spec: the closed, enumerated set of registered
charsets (Charset Registry, §2/§6).  ISO-8859 indices skip the historically
unassigned index 12, matching the list in `TextDecoderTest.cpp`. -/
inductive CharacterSet where
  | BINARY | ASCII
  | ISO8859_1 | ISO8859_2 | ISO8859_3 | ISO8859_4 | ISO8859_5 | ISO8859_6
  | ISO8859_7 | ISO8859_8 | ISO8859_9 | ISO8859_10 | ISO8859_11 | ISO8859_13
  | ISO8859_14 | ISO8859_15 | ISO8859_16
  | Shift_JIS | Big5 | GB2312 | GB18030 | EUC_KR | EUC_JP
  | UTF8 | UTF16BE | UTF16LE | UTF32BE | UTF32LE
  deriving DecidableEq, Repr, Fintype

/-- Modelled from the spec: the strategy tag the Codec Engine dispatches on
(§4.1).  The spec's tag list is reproduced; `EUC_JP`, listed among the
registered charsets, follows the same double-byte pattern as `EUC_KR`. -/
inductive Strategy where
  | Binary | SingleByte | Shift_JIS | Big5 | GB2312 | GB18030 | EUC_KR | EUC_JP
  | UTF8 | UTF16BE | UTF16LE | UTF32BE | UTF32LE
  deriving DecidableEq, Repr

/-- Modelled from the spec: the registry's strategy tag per charset (§4.1);
BINARY and ASCII both use the identity strategy (§4.2). -/
def strategy : CharacterSet → Strategy
  | .BINARY => .Binary
  | .ASCII => .Binary
  | .ISO8859_1 | .ISO8859_2 | .ISO8859_3 | .ISO8859_4 | .ISO8859_5
  | .ISO8859_6 | .ISO8859_7 | .ISO8859_8 | .ISO8859_9 | .ISO8859_10
  | .ISO8859_11 | .ISO8859_13 | .ISO8859_14 | .ISO8859_15 | .ISO8859_16 => .SingleByte
  | .Shift_JIS => .Shift_JIS
  | .Big5 => .Big5
  | .GB2312 => .GB2312
  | .GB18030 => .GB18030
  | .EUC_KR => .EUC_KR
  | .EUC_JP => .EUC_JP
  | .UTF8 => .UTF8
  | .UTF16BE => .UTF16BE
  | .UTF16LE => .UTF16LE
  | .UTF32BE => .UTF32BE
  | .UTF32LE => .UTF32LE

/-- Replacement code unit used by the best-effort substitution policy. -/
def kReplacement : Nat := 0xFFFD

/-- Lookup in a multi-byte decode table keyed by `leadByte * 256 + trailByte`
(spec §3, "Multi-byte decode table"). -/
def tableLookup (t : List (Nat × Nat)) (k : Nat) : Option Nat :=
  (t.find? (fun p => p.1 == k)).map (fun p => p.2)

/-- Modelled from the spec: the Shift_JIS double-byte JIS table (§4.2); the
entries are those pinned by `TextDecoderTest.AppendShift_JIS`. -/
def sjisTable : List (Nat × Nat) :=
  [(0x83C0, 0x3B2), (0x8447, 0x416), (0x935F, 0x70B9), (0xE4AA, 0x8317),
   (0x8365, 0x30C6)]

/-- Modelled from the spec: the Big5 double-byte table (§4.2); the entries
are those pinned by `TextDecoderTest.AppendBig5`. -/
def big5Table : List (Nat × Nat) :=
  [(0xA156, 0x2013), (0xA171, 0x3008), (0xC040, 0x9310), (0xF9D5, 0x9F98)]

/-- Modelled from the spec: the GB2312 double-byte table (§4.2); the entry is
the one pinned by `TextDecoderTest.AppendGB2312`. -/
def gb2312Table : List (Nat × Nat) :=
  [(0xB0A1, 0x554A)]

/-- Modelled from the spec: the GB2312-compatible two-byte table used by the
GB18030 strategy (§4.2); entries pinned by `TextDecoderTest.AppendGB18030`
(GB18030-2005 maps 0xA1A4 to U+00B7). -/
def gb18030TwoByteTable : List (Nat × Nat) :=
  [(0xA6C2, 0x3B2), (0xA1A4, 0xB7), (0xA1AA, 0x2014), (0xA8A6, 0xE9),
   (0xB0A1, 0x554A)]

/-- Modelled from the spec: the EUC-KR double-byte table (§4.2); entries
pinned by `TextDecoderTest.AppendEUC_KR`. -/
def eucKRTable : List (Nat × Nat) :=
  [(0xA2E6, 0x20AC), (0xA4A1, 0x3131)]

/-- Modelled from the spec: the EUC-JP double-byte table; the spec registers
EUC_JP (§6) but no mapping of it is pinned by the analysed material, so the
table carries no entries and every double-byte lookup takes the best-effort
substitution path. -/
def eucJPTable : List (Nat × Nat) := []

/-- Modelled from the spec: the per-charset ISO-8859 high-range table
(§4.2).  The 0x80–0x9F range is pinned to the identity (C1 controls) by
`TextDecoderTest.AppendISO8859Range80_9F` for every ISO-8859 variant; the
0xA0–0xFF values are not pinned by the analysed material and are modelled as
the identity (the ISO-8859-1 values) — no claim below depends on them. -/
def iso8859HighByte (_cs : CharacterSet) (b : Nat) : Nat := b

/-- Express a Unicode scalar value as UTF-16 code units: a surrogate pair
above U+FFFF (spec §3, "Wide string"); out-of-range values take the
best-effort replacement. -/
def toUtf16Units (cp : Nat) : List Nat :=
  if cp ≤ 0xFFFF then [cp]
  else if cp ≤ 0x10FFFF then
    [0xD800 + (cp - 0x10000) / 0x400, 0xDC00 + (cp - 0x10000) % 0x400]
  else [kReplacement]

/-- Modelled from the spec: one Shift_JIS decode step (§4.2): unconditional
ASCII identity for 0x00–0x7F (including 0x5C and 0x7E), half-width katakana
for 0xA1–0xDF (0xA1 ↦ U+FF61, so 0xA5 ↦ U+FF65), otherwise a double-byte
JIS lookup with best-effort substitution; a truncated lead byte at the end
of the buffer passes through.  Returns the output units and the number of
bytes consumed beyond the first. -/
def sjisStep (b : Nat) (rest : List Nat) : List Nat × Nat :=
  if b ≤ 0x7F then ([b], 0)
  else if 0xA1 ≤ b ∧ b ≤ 0xDF then ([0xFF61 + (b - 0xA1)], 0)
  else
    match rest with
    | [] => ([b], 0)
    | t :: _ =>
      match tableLookup sjisTable (b * 256 + t) with
      | some cp => ([cp], 1)
      | none => ([kReplacement], 1)

/-- Modelled from the spec: one double-byte decode step for Big5 / GB2312 /
EUC-KR / EUC-JP (§4.2): bytes below 0x80 pass through as ASCII; a byte at or
above 0x80 is a lead byte combined with the next byte into a table lookup,
falling back to the replacement on a missing entry; a truncated lead byte at
the end of the buffer passes through. -/
def doubleByteStep (table : List (Nat × Nat)) (b : Nat) (rest : List Nat) :
    List Nat × Nat :=
  if b ≤ 0x7F then ([b], 0)
  else
    match rest with
    | [] => ([b], 0)
    | t :: _ =>
      match tableLookup table (b * 256 + t) with
      | some cp => ([cp], 1)
      | none => ([kReplacement], 1)

/-- Modelled from the spec: the GB18030 4-byte codepoint range (§4.2,
"linear offset arithmetic over the GB18030 4-byte codepoint range") as a
list of `(firstPointer, count, firstCodepoint)` linear ranges.  Only the
anchors determined by the analysed material are carried: pointer 0 opens the
range at U+0080, the pointer of bytes {0x81,0x39,0xA7,0x39} reaches U+30FB
(pinned by `TextDecoderTest.AppendGB18030`), and lead byte 0x90 opens the
supplementary planes at U+10000. -/
def gb18030Ranges : List (Nat × Nat × Nat) :=
  [(0, 36, 0x80), (11729, 1, 0x30FB), (189000, 0x100000, 0x10000)]

/-- Codepoint of a GB18030 4-byte linear pointer: linear offset within the
matching range, best-effort replacement outside every known range. -/
def gb18030PointerCp (p : Nat) : Nat :=
  match gb18030Ranges.find? (fun r => decide (r.1 ≤ p ∧ p < r.1 + r.2.1)) with
  | some r => r.2.2 + (p - r.1)
  | none => kReplacement

/-- Modelled from the spec: one GB18030 decode step (§4.2): ASCII below
0x80; then the GB2312-compatible two-byte lookup; when that lookup fails and
the second byte lies in the 4-byte trail range 0x30–0x39, two additional
bytes are consumed and the codepoint comes from linear offset arithmetic
over the 4-byte pointer space; otherwise best-effort substitution. -/
def gb18030Step (b : Nat) (rest : List Nat) : List Nat × Nat :=
  if b ≤ 0x7F then ([b], 0)
  else
    match rest with
    | [] => ([b], 0)
    | t :: rest2 =>
      match tableLookup gb18030TwoByteTable (b * 256 + t) with
      | some cp => ([cp], 1)
      | none =>
        if 0x30 ≤ t ∧ t ≤ 0x39 then
          match rest2 with
          | b3 :: b4 :: _ =>
            if 0x81 ≤ b ∧ b ≤ 0xFE ∧ 0x81 ≤ b3 ∧ b3 ≤ 0xFE ∧
                0x30 ≤ b4 ∧ b4 ≤ 0x39 then
              (toUtf16Units (gb18030PointerCp
                ((((b - 0x81) * 10 + (t - 0x30)) * 126 + (b3 - 0x81)) * 10 +
                  (b4 - 0x30))), 3)
            else ([kReplacement], 1)
          | _ => ([kReplacement], 1)
        else ([kReplacement], 1)

/-- Is `b` a UTF-8 continuation byte (0x80–0xBF)? -/
def isCont (b : Nat) : Bool := decide (0x80 ≤ b ∧ b ≤ 0xBF)

/-- Modelled from the spec: one UTF-8 decode step (§4.2): standard 1–4 byte
variable-length decode; a malformed sequence falls back to the
single-byte-as-codepoint policy (never rejects). -/
def utf8Step (b : Nat) (rest : List Nat) : List Nat × Nat :=
  if b ≤ 0x7F then ([b], 0)
  else if 0xC0 ≤ b ∧ b ≤ 0xDF then
    match rest with
    | b2 :: _ =>
      if isCont b2 then ([(b - 0xC0) * 64 + (b2 - 0x80)], 1) else ([b], 0)
    | [] => ([b], 0)
  else if 0xE0 ≤ b ∧ b ≤ 0xEF then
    match rest with
    | b2 :: b3 :: _ =>
      if isCont b2 && isCont b3 then
        ([(b - 0xE0) * 4096 + (b2 - 0x80) * 64 + (b3 - 0x80)], 2)
      else ([b], 0)
    | _ => ([b], 0)
  else if 0xF0 ≤ b ∧ b ≤ 0xF7 then
    match rest with
    | b2 :: b3 :: b4 :: _ =>
      if isCont b2 && isCont b3 && isCont b4 then
        (toUtf16Units ((b - 0xF0) * 0x40000 + (b2 - 0x80) * 4096 +
          (b3 - 0x80) * 64 + (b4 - 0x80)), 3)
      else ([b], 0)
    | _ => ([b], 0)
  else ([b], 0)

/-- Modelled from the spec: one UTF-16 decode step (§4.2): 2 bytes per unit
in the declared byte order; a high-surrogate unit followed by a
low-surrogate unit passes through as the same surrogate pair (4 bytes
consumed); a truncated trailing byte passes through. -/
def utf16Step (be : Bool) (b : Nat) (rest : List Nat) : List Nat × Nat :=
  match rest with
  | [] => ([b], 0)
  | b2 :: rest2 =>
    let u := if be then b * 256 + b2 else b2 * 256 + b
    if 0xD800 ≤ u ∧ u ≤ 0xDBFF then
      match rest2 with
      | b3 :: b4 :: _ =>
        let u2 := if be then b3 * 256 + b4 else b4 * 256 + b3
        if 0xDC00 ≤ u2 ∧ u2 ≤ 0xDFFF then ([u, u2], 3) else ([u], 1)
      | _ => ([u], 1)
    else ([u], 1)

/-- Modelled from the spec: one UTF-32 decode step (§4.2): 4 bytes per
scalar in the declared byte order, emitted as a surrogate pair above
U+FFFF; truncated trailing bytes pass through one at a time. -/
def utf32Step (be : Bool) (b : Nat) (rest : List Nat) : List Nat × Nat :=
  match rest with
  | b2 :: b3 :: b4 :: _ =>
    let cp := if be then ((b * 256 + b2) * 256 + b3) * 256 + b4
              else ((b4 * 256 + b3) * 256 + b2) * 256 + b
    (toUtf16Units cp, 3)
  | _ => ([b], 0)

/-- Modelled from the spec: one decode step of the Codec Engine (§4.2),
dispatched on the charset's strategy tag.  Given the first byte `b` and the
remaining bytes `rest`, returns the output UTF-16 code units together with
the number of bytes consumed beyond the first (so a step always consumes at
least one byte). -/
def decodeStep (cs : CharacterSet) (b : Nat) (rest : List Nat) :
    List Nat × Nat :=
  match strategy cs with
  | .Binary => ([b], 0)
  | .SingleByte => if b ≤ 0x7F then ([b], 0) else ([iso8859HighByte cs b], 0)
  | .Shift_JIS => sjisStep b rest
  | .Big5 => doubleByteStep big5Table b rest
  | .GB2312 => doubleByteStep gb2312Table b rest
  | .GB18030 => gb18030Step b rest
  | .EUC_KR => doubleByteStep eucKRTable b rest
  | .EUC_JP => doubleByteStep eucJPTable b rest
  | .UTF8 => utf8Step b rest
  | .UTF16BE => utf16Step true b rest
  | .UTF16LE => utf16Step false b rest
  | .UTF32BE => utf32Step true b rest
  | .UTF32LE => utf32Step false b rest

/-- The decode loop with explicit fuel: each iteration applies one decode
step and drops the consumed bytes.  Fuel equal to the buffer length always
suffices because every step consumes at least one byte (`decodeGo_fuel`). -/
def decodeGo (cs : CharacterSet) : Nat → List Nat → List Nat
  | _, [] => []
  | 0, _ :: _ => []
  | fuel + 1, b :: rest =>
    let s := decodeStep cs b rest
    s.1 ++ decodeGo cs fuel (rest.drop s.2)

/-- Modelled from the spec: `decode(bytes, charset) -> wide string` (§6), a
total function over all byte inputs. -/
def decode (cs : CharacterSet) (bytes : List Nat) : List Nat :=
  decodeGo cs bytes.length bytes

/-- Modelled from the spec: `encodeScalarToUtf8` (§4.3), standard UTF-8
variable-length encoding of one unsigned 32-bit codepoint (1 byte ≤ 0x7F,
2 ≤ 0x7FF, 3 ≤ 0xFFFF, 4 ≤ 0x10FFFF); a value beyond U+10FFFF takes the
total, non-throwing policy and encodes the replacement character. -/
def utf32ToUtf8 (cp : Nat) : List Nat :=
  if cp ≤ 0x7F then [cp]
  else if cp ≤ 0x7FF then [0xC0 + cp / 64, 0x80 + cp % 64]
  else if cp ≤ 0xFFFF then
    [0xE0 + cp / 4096, 0x80 + cp / 64 % 64, 0x80 + cp % 64]
  else if cp ≤ 0x10FFFF then
    [0xF0 + cp / 0x40000, 0x80 + cp / 4096 % 64, 0x80 + cp / 64 % 64,
     0x80 + cp % 64]
  else [0xEF, 0xBF, 0xBD]

/-- Modelled from the spec: `wideToUtf8` (§4.3): iterate the wide string,
recombine a high surrogate followed by a low surrogate into one scalar
before encoding; an unpaired surrogate is encoded under the total,
non-throwing policy. -/
def wideToUtf8 : List Nat → List Nat
  | [] => []
  | [u] => utf32ToUtf8 u
  | u :: u2 :: rest2 =>
    if (0xD800 ≤ u ∧ u ≤ 0xDBFF) ∧ (0xDC00 ≤ u2 ∧ u2 ≤ 0xDFFF) then
      utf32ToUtf8 (0x10000 + (u - 0xD800) * 0x400 + (u2 - 0xDC00)) ++
        wideToUtf8 rest2
    else utf32ToUtf8 u ++ wideToUtf8 (u2 :: rest2)

/-- Modelled from the spec: `charsetToName(Charset) -> string` (§4.1), the
pure inverse lookup, total over all registered values; names follow the
accepted-name list of §6. -/
def charsetToName : CharacterSet → String
  | .BINARY => "BINARY"
  | .ASCII => "ASCII"
  | .ISO8859_1 => "ISO8859_1"
  | .ISO8859_2 => "ISO8859_2"
  | .ISO8859_3 => "ISO8859_3"
  | .ISO8859_4 => "ISO8859_4"
  | .ISO8859_5 => "ISO8859_5"
  | .ISO8859_6 => "ISO8859_6"
  | .ISO8859_7 => "ISO8859_7"
  | .ISO8859_8 => "ISO8859_8"
  | .ISO8859_9 => "ISO8859_9"
  | .ISO8859_10 => "ISO8859_10"
  | .ISO8859_11 => "ISO8859_11"
  | .ISO8859_13 => "ISO8859_13"
  | .ISO8859_14 => "ISO8859_14"
  | .ISO8859_15 => "ISO8859_15"
  | .ISO8859_16 => "ISO8859_16"
  | .Shift_JIS => "Shift_JIS"
  | .Big5 => "Big5"
  | .GB2312 => "GB2312"
  | .GB18030 => "GB18030"
  | .EUC_KR => "EUC_KR"
  | .EUC_JP => "EUC_JP"
  | .UTF8 => "UTF8"
  | .UTF16BE => "UTF16BE"
  | .UTF16LE => "UTF16LE"
  | .UTF32BE => "UTF32BE"
  | .UTF32LE => "UTF32LE"

/-- Modelled from the spec: the registry's name table in upper-case
canonical form, including the `SJIS` alias for Shift_JIS (§4.1); lookup is
case-insensitive via upper-casing the queried name. -/
def charsetNames : List (String × CharacterSet) :=
  [("BINARY", .BINARY), ("ASCII", .ASCII),
   ("ISO8859_1", .ISO8859_1), ("ISO8859_2", .ISO8859_2),
   ("ISO8859_3", .ISO8859_3), ("ISO8859_4", .ISO8859_4),
   ("ISO8859_5", .ISO8859_5), ("ISO8859_6", .ISO8859_6),
   ("ISO8859_7", .ISO8859_7), ("ISO8859_8", .ISO8859_8),
   ("ISO8859_9", .ISO8859_9), ("ISO8859_10", .ISO8859_10),
   ("ISO8859_11", .ISO8859_11), ("ISO8859_13", .ISO8859_13),
   ("ISO8859_14", .ISO8859_14), ("ISO8859_15", .ISO8859_15),
   ("ISO8859_16", .ISO8859_16),
   ("SHIFT_JIS", .Shift_JIS), ("SJIS", .Shift_JIS),
   ("BIG5", .Big5), ("GB2312", .GB2312), ("GB18030", .GB18030),
   ("EUC_KR", .EUC_KR), ("EUC_JP", .EUC_JP),
   ("UTF8", .UTF8), ("UTF16BE", .UTF16BE), ("UTF16LE", .UTF16LE),
   ("UTF32BE", .UTF32BE), ("UTF32LE", .UTF32LE)]

/-- ASCII upper-casing of one character, the normalization used by the
registry's case-insensitive name resolution. -/
def upChar (c : Char) : Char :=
  if 'a' ≤ c ∧ c ≤ 'z' then Char.ofNat (c.toNat - 32) else c

/-- ASCII upper-casing of a name. -/
def upName (s : String) : String := ⟨s.data.map upChar⟩

/-- ASCII lower-casing of one character (used to exercise the registry's
case-insensitive lookup from the other case). -/
def lowChar (c : Char) : Char :=
  if 'A' ≤ c ∧ c ≤ 'Z' then Char.ofNat (c.toNat + 32) else c

/-- ASCII lower-casing of a name. -/
def lowName (s : String) : String := ⟨s.data.map lowChar⟩

/-- The registry's only hard failure: an unrecognized charset name (§7). -/
inductive UnknownCharsetError where
  | unknownName : String → UnknownCharsetError
  deriving DecidableEq, Repr

deriving instance DecidableEq for Except

/-- Modelled from the spec: `charsetFromName(name) -> Charset` (§6):
case-insensitive name resolution at the registry boundary, failing with
`UnknownCharsetError` when no registered name matches. -/
def charsetFromName (name : String) :
    Except UnknownCharsetError CharacterSet :=
  match charsetNames.find? (fun p => p.1 == upName name) with
  | some p => .ok p.2
  | none => .error (.unknownName name)

/-- The full pipeline a caller sees: resolve the charset name at the
registry boundary, then decode; the decode stage itself is total (§7). -/
def decodeNamed (name : String) (bytes : List Nat) :
    Except UnknownCharsetError (List Nat) :=
  (charsetFromName name).map (fun cs => decode cs bytes)

/-- The ISO-8859 family charsets exercised by
`TextDecoderTest.AppendISO8859Range80_9F`. -/
def iso8859All : List CharacterSet :=
  [.ISO8859_1, .ISO8859_2, .ISO8859_3, .ISO8859_4, .ISO8859_5, .ISO8859_6,
   .ISO8859_7, .ISO8859_8, .ISO8859_9, .ISO8859_10, .ISO8859_11,
   .ISO8859_13, .ISO8859_14, .ISO8859_15, .ISO8859_16]

/-- The byte buffer 0x80, 0x81, ..., 0x9F used by the C1-control-range
test. -/
def bytes80_9F : List Nat := (List.range 0x20).map (fun i => 0x80 + i)

/-! ## Structural lemmas about the decode loop -/

theorem sjisStep_snd_le (b : Nat) (rest : List Nat) :
    (sjisStep b rest).2 ≤ rest.length := by
  unfold sjisStep
  repeat' split
  all_goals simp_all

theorem doubleByteStep_snd_le (t : List (Nat × Nat)) (b : Nat)
    (rest : List Nat) : (doubleByteStep t b rest).2 ≤ rest.length := by
  unfold doubleByteStep
  repeat' split
  all_goals simp_all

theorem gb18030Step_snd_le (b : Nat) (rest : List Nat) :
    (gb18030Step b rest).2 ≤ rest.length := by
  unfold gb18030Step
  repeat' split
  all_goals simp_all

theorem utf8Step_snd_le (b : Nat) (rest : List Nat) :
    (utf8Step b rest).2 ≤ rest.length := by
  unfold utf8Step
  repeat' split
  all_goals simp_all

theorem utf16Step_snd_le (be : Bool) (b : Nat) (rest : List Nat) :
    (utf16Step be b rest).2 ≤ rest.length := by
  unfold utf16Step
  repeat' (split <;> try simp_all)

theorem utf32Step_snd_le (be : Bool) (b : Nat) (rest : List Nat) :
    (utf32Step be b rest).2 ≤ rest.length := by
  unfold utf32Step
  repeat' split
  all_goals simp_all

/-- Every decode step consumes at most the bytes that are actually there:
the extra consumption beyond the first byte never exceeds the remaining
buffer. -/
theorem decodeStep_snd_le (cs : CharacterSet) (b : Nat) (rest : List Nat) :
    (decodeStep cs b rest).2 ≤ rest.length := by
  unfold decodeStep
  split
  all_goals first
    | simp
    | (split <;> simp)
    | exact sjisStep_snd_le b rest
    | exact doubleByteStep_snd_le _ b rest
    | exact gb18030Step_snd_le b rest
    | exact utf8Step_snd_le b rest
    | exact utf16Step_snd_le true b rest
    | exact utf16Step_snd_le false b rest
    | exact utf32Step_snd_le true b rest
    | exact utf32Step_snd_le false b rest

/-- Any fuel at least the buffer length gives the same decode result: the
loop terminates within `length` iterations because every step consumes at
least one byte. -/
theorem decodeGo_fuel (cs : CharacterSet) :
    ∀ fuel fuel' (bs : List Nat), bs.length ≤ fuel → bs.length ≤ fuel' →
      decodeGo cs fuel bs = decodeGo cs fuel' bs := by
  intro fuel
  induction fuel with
  | zero =>
    intro fuel' bs h _
    have : bs = [] := List.eq_nil_of_length_eq_zero (Nat.le_zero.mp h)
    subst this
    cases fuel' <;> rfl
  | succ f ih =>
    intro fuel' bs h h'
    cases bs with
    | nil => cases fuel' <;> rfl
    | cons b rest =>
      cases fuel' with
      | zero => simp at h'
      | succ f' =>
        simp only [decodeGo]
        congr 1
        apply ih
        · calc (rest.drop (decodeStep cs b rest).2).length
              ≤ rest.length := by simp
          _ ≤ f := by simpa using h
        · calc (rest.drop (decodeStep cs b rest).2).length
              ≤ rest.length := by simp
          _ ≤ f' := by simpa using h'

/-- One unfolding of `decode`: a nonempty buffer is one decode step followed
by decoding the bytes left after the step. -/
theorem decode_cons (cs : CharacterSet) (b : Nat) (rest : List Nat) :
    decode cs (b :: rest) =
      (decodeStep cs b rest).1 ++
        decode cs (rest.drop (decodeStep cs b rest).2) := by
  unfold decode
  simp only [List.length_cons, decodeGo]
  congr 1
  apply decodeGo_fuel
  · simp
  · rfl

/-- A Binary-strategy charset decodes every byte to itself. -/
theorem decode_identity (cs : CharacterSet) (h : strategy cs = .Binary) :
    ∀ bs : List Nat, decode cs bs = bs := by
  intro bs
  induction bs with
  | nil => rfl
  | cons b rest ih =>
    rw [decode_cons]
    simp [decodeStep, h, ih]

/-- A SingleByte-strategy charset emits exactly one code unit per byte. -/
theorem decode_singleByte_length (cs : CharacterSet)
    (h : strategy cs = .SingleByte) :
    ∀ bs : List Nat, (decode cs bs).length = bs.length := by
  intro bs
  induction bs with
  | nil => rfl
  | cons b rest ih =>
    rw [decode_cons]
    by_cases hb : b ≤ 0x7F <;> simp [decodeStep, h, hb, ih]

/-- The multi-byte Shift_JIS vector of `TextDecoderTest.AppendShift_JIS`
holds of the model (mixed ASCII, katakana and double-byte JIS steps). -/
theorem sjis_test_vector :
    decode .Shift_JIS [0x61, 0x83, 0xC0, 0x63, 0x84, 0x47, 0xA5, 0xBF,
      0x93, 0x5F, 0xE4, 0xAA, 0x83, 0x65] =
    [0x61, 0x3B2, 0x63, 0x416, 0xFF65, 0xFF7F, 0x70B9, 0x8317, 0x30C6] := by
  decide

/-- The mixed vector of `TextDecoderTest.AppendBig5` holds of the model. -/
theorem big5_test_vector :
    decode .Big5 [0x1, 0x20, 0xA1, 0x71, 0x40, 0xC0, 0x40, 0xF9, 0xD5,
      0x7F] = [0x1, 0x20, 0x3008, 0x40, 0x9310, 0x9F98, 0x7F] := by decide

/-- The mixed vector of `TextDecoderTest.AppendGB18030` holds of the
model. -/
theorem gb18030_test_vector :
    decode .GB18030 [0x61, 0xA6, 0xC2, 0x63, 0x81, 0x39, 0xA7, 0x39,
      0xA1, 0xA4, 0xA1, 0xAA, 0xA8, 0xA6, 0x5A] =
    [0x61, 0x3B2, 0x63, 0x30FB, 0xB7, 0x2014, 0xE9, 0x5A] := by decide

/-- The vectors of `TextDecoderTest.AppendEUC_KR` hold of the model. -/
theorem euc_kr_test_vector :
    decode .EUC_KR [0xA2, 0xE6] = [0x20AC] ∧
    decode .EUC_KR [0x61, 0xA4, 0xA1, 0x5A] = [0x61, 0x3131, 0x5A] := by
  decide

/-- The first vector of `TextDecoderTest.AppendUTF16BE` holds of the
model. -/
theorem utf16be_test_vector :
    decode .UTF16BE [0x00, 0x01, 0x00, 0x7F, 0x00, 0x80, 0x00, 0xFF,
      0x01, 0xFF, 0x10, 0xFF, 0xFF, 0xFD] =
    [0x1, 0x7F, 0x80, 0xFF, 0x1FF, 0x10FF, 0xFFFD] := by decide

/-! ## Claims -/

/-- C1: Shift_JIS decoding maps every byte 0x00–0x7F in lead position to the
identical codepoint in every input (in particular 0x5C stays U+005C and 0x7E
stays U+007E), while the single byte 0xA5 decodes to U+FF65 through the
half-width katakana table. -/
theorem shift_jis_ascii_identity :
    (∀ (b : Fin 0x80) (rest : List Nat),
      decode .Shift_JIS (b.val :: rest) = b.val :: decode .Shift_JIS rest) ∧
    decode .Shift_JIS [0x5C] = [0x5C] ∧
    decode .Shift_JIS [0x7E] = [0x7E] ∧
    decode .Shift_JIS [0xA5] = [0xFF65] := by
  refine ⟨?_, by decide, by decide, by decide⟩
  intro b rest
  rw [decode_cons]
  have hb : b.val ≤ 0x7F := Nat.lt_succ_iff.mp b.isLt
  simp [decodeStep, strategy, sjisStep, hb]

/-- C2: decoding under BINARY or ASCII is the identity on every byte
sequence: one code unit per byte, equal to the byte, with no input ever
rejected. -/
theorem binary_ascii_identity :
    ∀ bs : List Nat, decode .BINARY bs = bs ∧ decode .ASCII bs = bs :=
  fun bs => ⟨decode_identity .BINARY rfl bs, decode_identity .ASCII rfl bs⟩

/-- C3: decoding under any registered charset is total and never raises;
the only error of the pipeline is `UnknownCharsetError`, raised at the
registry's name-resolution boundary independently of the bytes. -/
theorem decode_error_only_at_registry :
    (∀ (name : String) (bs bs' : List Nat),
      (decodeNamed name bs).isOk = (decodeNamed name bs').isOk) ∧
    (∀ (name : String) (bs : List Nat) (e : UnknownCharsetError),
      decodeNamed name bs = .error e ↔ charsetFromName name = .error e) ∧
    (∀ (name : String) (cs : CharacterSet) (bs : List Nat),
      charsetFromName name = .ok cs →
        decodeNamed name bs = .ok (decode cs bs)) := by
  refine ⟨?_, ?_, ?_⟩
  · intro name bs bs'
    unfold decodeNamed
    cases charsetFromName name <;> rfl
  · intro name bs e
    unfold decodeNamed
    cases h : charsetFromName name <;>
      simp [Except.map]
  · intro name cs bs h
    unfold decodeNamed
    rw [h]
    rfl

/-- C3 witness: at the concrete name "BINARY" the registry resolves and the
pipeline returns the total decode of the bytes. -/
theorem decode_error_only_at_registry_witness :
    charsetFromName "BINARY" = .ok .BINARY ∧
    decodeNamed "BINARY" [0x00, 0xFF] = .ok (decode .BINARY [0x00, 0xFF]) :=
  ⟨by decide, decode_error_only_at_registry.2.2 "BINARY" .BINARY [0x00, 0xFF]
    (by decide)⟩

/-- C4: UTF-16BE decoding of {0xD8,0x00,0xDC,0x00} yields the surrogate
pair for U+10000 (high unit 0xD800, low unit 0xDC00), and encoding that
pair back to UTF-8 yields the 4-byte encoding of U+10000. -/
theorem utf16be_surrogate_pair_decode :
    decode .UTF16BE [0xD8, 0x00, 0xDC, 0x00] = [0xD800, 0xDC00] ∧
    wideToUtf8 [0xD800, 0xDC00] = [0xF0, 0x90, 0x80, 0x80] := by decide

/-- C5: GB18030 decoding resolves {0xA6,0xC2} through the GB2312-compatible
two-byte table to U+03B2; for {0x81,0x39,0xA7,0x39} the two-byte lookup
fails, the step consumes two additional bytes (3 beyond the lead), and the
linear offset arithmetic yields U+30FB. -/
theorem gb18030_two_and_four_byte_decode :
    decode .GB18030 [0xA6, 0xC2] = [0x3B2] ∧
    tableLookup gb18030TwoByteTable (0x81 * 256 + 0x39) = none ∧
    (decodeStep .GB18030 0x81 [0x39, 0xA7, 0x39]).2 = 3 ∧
    decode .GB18030 [0x81, 0x39, 0xA7, 0x39] = [0x30FB] := by decide

/-- C6: for every registered charset, converting to its name and resolving
the name back (case-insensitively: also after lower-casing) returns the
same charset. -/
theorem charset_name_roundtrip :
    ∀ c : CharacterSet,
      charsetFromName (charsetToName c) = .ok c ∧
      charsetFromName (lowName (charsetToName c)) = .ok c := by
  decide

/-- C7: for every byte 0x00–0x7F and every registered charset, decoding the
single-byte buffer of that byte yields exactly that codepoint as a single
code unit (the Shift_JIS 0x5C/0x7E quirk entries are themselves the ASCII
identity). -/
theorem ascii_identity_all_charsets :
    ∀ (b : Fin 0x80) (cs : CharacterSet), decode cs [b.val] = [b.val] := by
  decide

/-- C8: every SingleByte-strategy charset decodes the 256-byte buffer of
all byte values to exactly 256 code units: no byte is dropped or
expanded. -/
theorem singlebyte_full_range_length :
    ∀ cs : CharacterSet, strategy cs = .SingleByte →
      (decode cs (List.range 256)).length = 256 := by
  intro cs h
  rw [decode_singleByte_length cs h]
  simp

/-- C8 witness: ISO-8859-1 is a SingleByte charset and decodes the full
byte range to 256 code units. -/
theorem singlebyte_full_range_length_witness :
    strategy .ISO8859_1 = .SingleByte ∧
    (decode .ISO8859_1 (List.range 256)).length = 256 :=
  ⟨rfl, singlebyte_full_range_length .ISO8859_1 rfl⟩

/-- C9: every decode step consumes at least one byte and never more than
the remaining buffer, and fuel equal to the buffer length already gives the
final result: the loop consumes the entire input and terminates on every
input. -/
theorem decode_step_progress :
    (∀ (cs : CharacterSet) (b : Nat) (rest : List Nat),
      1 ≤ 1 + (decodeStep cs b rest).2 ∧
      1 + (decodeStep cs b rest).2 ≤ (b :: rest).length) ∧
    (∀ (cs : CharacterSet) (fuel : Nat) (bs : List Nat),
      bs.length ≤ fuel → decodeGo cs fuel bs = decode cs bs) := by
  constructor
  · intro cs b rest
    refine ⟨Nat.le_add_right 1 _, ?_⟩
    have := decodeStep_snd_le cs b rest
    simp only [List.length_cons]
    omega
  · intro cs fuel bs h
    exact decodeGo_fuel cs fuel bs.length bs h (Nat.le_refl _)

/-- C9 witness: with surplus fuel the loop gives the same result as
`decode` on a concrete malformed UTF-8 buffer. -/
theorem decode_step_progress_witness :
    [0xC3, 0xA9, 0xFF].length ≤ 10 ∧
    decodeGo .UTF8 10 [0xC3, 0xA9, 0xFF] = decode .UTF8 [0xC3, 0xA9, 0xFF] :=
  ⟨by decide, decode_step_progress.2 .UTF8 10 [0xC3, 0xA9, 0xFF] (by decide)⟩

/-- C10: every ISO-8859 family charset decodes each byte of the C1 control
range 0x80–0x9F to the identical code unit, one unit per byte. -/
theorem iso8859_c1_range_identity :
    ∀ cs ∈ iso8859All, decode cs bytes80_9F = bytes80_9F := by decide

/-- C10 witness: ISO-8859-5 maps the 0x80–0x9F buffer to itself. -/
theorem iso8859_c1_range_identity_witness :
    CharacterSet.ISO8859_5 ∈ iso8859All ∧
    decode .ISO8859_5 bytes80_9F = bytes80_9F :=
  ⟨by decide, iso8859_c1_range_identity .ISO8859_5 (by decide)⟩

end ZXingSpec
